import Mathlib

/-!
Shallow embedding of `emotion_recognition/dataset.py` (agkphysics/emotion).

Conventions of the embedding:
* numpy arrays are Lean lists; a 2-D array is a `List (List α)` (list of rows),
  a ragged/3-D array is a `List (List (List α))` (list of per-instance 2-D arrays).
* Per-instance feature data whose internal structure is irrelevant to a claim is
  an opaque type parameter `γ` (numpy fancy indexing on axis 0 is list selection).
* Class-label strings are an abstract linearly ordered type `L`; Python's
  lexicographic `sorted` on strings is `List.insertionSort (· ≤ ·)` on `L`
  (a stable sort by a total order produces the same list).
* Instance names, speaker names and corpus ids stay `String` (only equality,
  concatenation and membership are used on them).
* Python functions that can raise return `Except DatasetError _`.
-/

/-- `numpy.cumsum` on a list of naturals. -/
def cumsum (l : List Nat) : List Nat :=
  (l.foldl (fun acc s => (acc.1 + s, acc.2 ++ [acc.1 + s])) (0, [])).2

/-- Selection of several positions of a list: `l[idx]` (numpy fancy indexing
on axis 0, or a Python comprehension `[l[i] for i in idx]`). -/
def select (l : List β) (idx : List Nat) : List β :=
  idx.filterMap l.get?

/-- The indices at which `p` holds:
Python `[i for i, v in enumerate(l) if p(v)]`. -/
def idxWhere : List β → (β → Bool) → List Nat
  | [], _ => []
  | b :: t, p =>
    if p b then 0 :: (idxWhere t p).map (· + 1) else (idxWhere t p).map (· + 1)

/-- Length of the result of `numpy.bincount(l, minlength=m)`:
`m` if `l` is empty, else `max m (max(l) + 1)`. -/
def bcLen (l : List Nat) (m : Nat) : Nat :=
  match l with
  | [] => m
  | _ => max m (l.foldr max 0 + 1)

/-- `numpy.bincount(l, minlength=m)`. -/
def bincount (l : List Nat) (m : Nat) : List Nat :=
  (List.range (bcLen l m)).map (fun i => l.count i)

/-- `numpy.repeat(numpy.arange(start, start + len(sizes)), sizes)`:
`sizes[j]` copies of `start + j`, concatenated in order. -/
def repeatIdx : List Nat → Nat → List Nat
  | [], _ => []
  | s :: rest, start => List.replicate s start ++ repeatIdx rest (start + 1)

/-- `_make_flat`: flattens a ragged array into a flat 2-D buffer
(`numpy.concatenate`) and the per-instance length vector. -/
def make_flat (a : List (List (List α))) : List (List α) × List Nat :=
  (a.flatten, a.map List.length)

/-- `_make_ragged`: `numpy.split(flat, cumsum(slices)[:-1])`.  With `k`
slice entries there are `k - 1` split points, so the final piece takes all
remaining rows; with no entries `numpy.split` returns the single piece
`[flat]`. -/
def make_ragged (flat : List (List α)) : List Nat → List (List (List α))
  | [] => [flat]
  | [_] => [flat]
  | s :: rest@(_ :: _) => flat.take s :: make_ragged (flat.drop s) rest

/-- Result of `_reshape_data_array`: a contiguous 2-D array, a contiguous
3-D array (`numpy.reshape`), or a variable-length array of 2-D arrays
(`dtype=object`). -/
inductive ReshapeResult (α : Type u) where
  | rect2 : List (List α) → ReshapeResult α
  | rect3 : List (List (List α)) → ReshapeResult α
  | ragged : List (List (List α)) → ReshapeResult α
  deriving DecidableEq

/-- Whether a `ReshapeResult` is a contiguous 3-D array. -/
def ReshapeResult.isRect3 : ReshapeResult α → Bool
  | .rect3 _ => true
  | _ => false

/-- `numpy.reshape(x, (n, len, cols))` of a 2-D buffer `x` with `n * len`
rows: chunk the rows into `n` groups of `len`. -/
def chunkRows (x : List (List α)) (n len : Nat) : List (List (List α)) :=
  (List.range n).map (fun i => (x.drop (i * len)).take len)

/-- `_reshape_data_array(x, slices)`: pass the 2-D array through when there is
one row per instance; reinterpret as a contiguous 3-D array when all slice
lengths are equal; otherwise split at cumulative offsets into a ragged
array. -/
def reshape_data_array (x : List (List α)) (slices : List Nat) : ReshapeResult α :=
  if x.length = slices.length then
    .rect2 x
  else if slices.all (· = slices.getD 0 0) then
    .rect3 (chunkRows x slices.length (x.length / slices.length))
  else
    .ragged (make_ragged x slices)


/-- Python `sorted(set(l))` under the linear order of `L` (for the source,
lexicographic order on class-name strings): the sorted list of the distinct
elements of `l`. -/
def sortDedup [LinearOrder L] (l : List L) : List L :=
  List.insertionSort (· ≤ ·) l.dedup

/-- Python `m.get(k, k)` for a string-to-string dict `m`: the image of `k`
when `k` is a key, else `k` itself. -/
def mget [DecidableEq L] (m : List (L × L)) (k : L) : L :=
  (m.lookup k).getD k

/-- State of a `LabelledDataset`: the per-instance arrays and the derived
metadata mutated by `map_classes` / `remove_classes`.  Per-instance feature
data is an opaque `γ` (only whole-instance selection acts on it). -/
structure LDS (γ : Type u) (L : Type v) where
  corpus : String
  x : List γ
  names : List String
  speakers : List String
  speaker_indices : List Nat
  speaker_counts : List Nat
  speaker_groups : List (List String)
  speaker_group_indices : List Nat
  classes : List L
  y : List Nat
  class_counts : List Nat

/-- `LabelledDataset.map_classes(map)`: the new class list is
`sorted(set(map.get(c, c) for c in classes))`; `arr_map` sends each old class
index to its new index, and `y` is pushed through it
(`self._y = arr_map[self.y]`); `class_counts` is rebuilt with
`np.bincount(self.y)` (no `minlength`). -/
def map_classes [LinearOrder L] (d : LDS γ L) (m : List (L × L)) : LDS γ L :=
  let new_classes := sortDedup (d.classes.map (mget m))
  let arr_map := d.classes.map (fun k => new_classes.indexOf (mget m k))
  let y2 := d.y.map (fun i => arr_map.getD i 0)
  { d with classes := new_classes, y := y2, class_counts := bincount y2 0 }

/-- `LabelledDataset.remove_classes(keep)`: instances whose class name is not
in `keep` are dropped from `x`, `names` and `speaker_indices`;
`speaker_counts` is rebuilt with `minlength=len(speakers)`; the class list
becomes `sorted(keep ∩ classes)` and `y` is re-derived from the retained
label strings.  Line 570 of the source assigns
`self._speaker_group_indices = self._speaker_indices`. -/
def remove_classes [LinearOrder L] [Inhabited L] (d : LDS γ L) (keep : List L) : LDS γ L :=
  let str_labels := d.y.map (fun i => d.classes.getD i default)
  let keep_idx := idxWhere str_labels (fun s => decide (s ∈ keep))
  let si2 := select d.speaker_indices keep_idx
  let cls2 := sortDedup (d.classes.filter (fun c => decide (c ∈ keep)))
  let str2 := str_labels.filter (fun s => decide (s ∈ keep))
  let y2 := str2.map (fun s => cls2.indexOf s)
  { d with
    x := select d.x keep_idx
    names := select d.names keep_idx
    speaker_indices := si2
    speaker_counts := bincount si2 d.speakers.length
    speaker_group_indices := si2
    classes := cls2
    y := y2
    class_counts := bincount y2 0 }

/-- State of a `CombinedDataset`. -/
structure CDS (γ : Type u) (L : Type v) where
  corpus : String
  corpora : List String
  corpus_indices : List Nat
  x : List γ
  names : List String
  speakers : List String
  speaker_indices : List Nat
  speaker_groups : List (List String)
  speaker_group_indices : List Nat
  classes : List L
  y : List Nat

/-- One iteration of the speaker-merging loop of `CombinedDataset.__init__`:
offsets are taken from the lengths of the accumulated speaker and group lists
before the current dataset's identifiers (namespaced by corpus) are
appended. -/
def combAcc (acc : List String × List Nat × List (List String) × List Nat)
    (d : LDS γ L) : List String × List Nat × List (List String) × List Nat :=
  (acc.1 ++ d.speakers.map (fun s => d.corpus ++ "_" ++ s),
   acc.2.1 ++ d.speaker_indices.map (· + acc.1.length),
   acc.2.2.1 ++ d.speaker_groups.map (fun g => g.map (fun s => d.corpus ++ "_" ++ s)),
   acc.2.2.2 ++ d.speaker_group_indices.map (· + acc.2.2.1.length))

/-- The speaker-merging loop of `CombinedDataset.__init__`, yielding
`(speakers, speaker_indices, speaker_groups, speaker_group_indices)`. -/
def combSpeakers (ds : List (LDS γ L)) :
    List String × List Nat × List (List String) × List Nat :=
  ds.foldl combAcc ([], [], [], [])

/-- `CombinedDataset.__init__(*datasets, labels=labels)`.  `labels = []`
models Python `labels=None` (and the falsy `labels=[]`).  When a label
allow-list is given, only `x`, `speaker_indices` and the label strings are
filtered by `keep_idx`; `names` and `corpus_indices` are left at full length,
and `classes` becomes `sorted(labels)` (no deduplication).  The final line of
the constructor assigns `self._speaker_group_indices = self._speaker_indices`,
discarding the offset group indices computed in the loop. -/
def combinedInit [LinearOrder L] [Inhabited L] (ds : List (LDS γ L)) (labels : List L) :
    CDS γ L :=
  let sizes := ds.map (fun d => d.x.length)
  let sp := combSpeakers ds
  let x0 := ds.flatMap (fun d => d.x)
  let all_labels := (ds.flatMap (fun d => d.classes)).dedup
  let str0 := ds.flatMap (fun d => d.y.map (fun i => d.classes.getD i default))
  let drop := all_labels.filter (fun c => decide (c ∉ labels))
  let keep_idx := idxWhere str0 (fun s => decide (s ∉ drop))
  let x1 := if labels = [] then x0 else select x0 keep_idx
  let si1 := if labels = [] then sp.2.1 else select sp.2.1 keep_idx
  let classes1 := if labels = [] then sortDedup all_labels
                  else List.insertionSort (· ≤ ·) labels
  let str1 := if labels = [] then str0 else str0.filter (fun s => decide (s ∉ drop))
  { corpus := "combined"
    corpora := ds.map (fun d => d.corpus)
    corpus_indices := repeatIdx sizes 0
    x := x1
    names := ds.flatMap (fun d => d.names.map (fun n => d.corpus ++ "_" ++ n))
    speakers := sp.1
    speaker_indices := si1
    speaker_groups := sp.2.2.1
    speaker_group_indices := si1
    classes := classes1
    y := str1.map (fun s => classes1.indexOf s) }

/-- `CombinedDataset.corpus_counts`: `np.bincount(self.corpus_indices)`. -/
def corpus_counts (c : CDS γ L) : List Nat :=
  bincount c.corpus_indices 0

/-- `CombinedDataset.corpus_to_idx(corpus)`: `self.corpora.index(corpus)`. -/
def corpus_to_idx (c : CDS γ L) (s : String) : Nat :=
  c.corpora.indexOf s

/-- `CombinedDataset.get_corpus_split(corpus)`: the indices at which
`corpus_indices` equals the corpus's index, and the complementary indices. -/
def get_corpus_split (c : CDS γ L) (s : String) : List Nat × List Nat :=
  let j := corpus_to_idx c s
  ((List.range c.corpus_indices.length).filter
      (fun i => decide (c.corpus_indices.getD i 0 = j)),
   (List.range c.corpus_indices.length).filter
      (fun i => decide (¬c.corpus_indices.getD i 0 = j)))

/-- Feature matrix of a `Dataset` as `Dataset.normalise` discriminates it:
a contiguous 2-D array, or (`dtype == object or len(shape) == 3`) a sequence
of per-instance 2-D arrays. -/
inductive XArr (α : Type u) where
  | rect2 : List (List α) → XArr α
  | seq : List (List (List α)) → XArr α
  deriving DecidableEq

/-- numpy scatter-assignment `l[idx] = vals` on axis 0. -/
def scatterIdx (l : List β) (idx : List Nat) (vals : List β) : List β :=
  (idx.zip vals).foldl (fun acc p => acc.set p.1 p.2) l

/-- The `scheme == 'all'` body of `Dataset.normalise`: flatten if the data is
ragged/3-D, fit-transform the pooled buffer, and split it back. -/
def normAll (f : List (List α) → List (List α)) : XArr α → XArr α
  | .seq a => .seq (make_ragged (f (make_flat a).1) (make_flat a).2)
  | .rect2 m => .rect2 (f m)

/-- One iteration of the `scheme == 'speaker'` loop of `Dataset.normalise`:
speakers with zero instances are skipped, otherwise the rows of the speaker's
instances are transformed in place. -/
def normSpeakerStep (f : List (List α) → List (List α)) (si counts : List Nat)
    (x : XArr α) (sp : Nat) : XArr α :=
  if counts.getD sp 0 = 0 then x
  else
    let idx := idxWhere si (fun i => decide (i = sp))
    match x with
    | .seq a =>
        let sel := select a idx
        .seq (scatterIdx a idx (make_ragged (f (make_flat sel).1) (make_flat sel).2))
    | .rect2 m => .rect2 (scatterIdx m idx (f (select m idx)))

/-- The fields of a `Dataset`/`CombinedDataset` read by `normalise`. -/
structure NormDS (α : Type u) where
  x : XArr α
  speakers : List String
  speaker_indices : List Nat
  speaker_counts : List Nat
  corpora : List String
  corpus_indices : List Nat

/-- `Dataset.normalise(normaliser, scheme)`: dispatch on the scheme string;
a scheme that is neither `'all'` nor `'speaker'` falls through both branches
and nothing happens. -/
def normaliseD (d : NormDS α) (f : List (List α) → List (List α))
    (scheme : String) : NormDS α :=
  if scheme = "all" then { d with x := normAll f d.x }
  else if scheme = "speaker" then
    let x2 := (List.range d.speakers.length).foldl
      (normSpeakerStep f d.speaker_indices d.speaker_counts) d.x
    { d with x := x2 }
  else d

/-- One iteration of the `scheme == 'corpus'` loop of
`CombinedDataset.normalise`. -/
def normCorpusStep (f : List (List α) → List (List α)) (ci : List Nat)
    (x : XArr α) (corpus : Nat) : XArr α :=
  let idx := idxWhere ci (fun i => decide (i = corpus))
  match x with
  | .seq a =>
      let sel := select a idx
      .seq (scatterIdx a idx (make_ragged (f (make_flat sel).1) (make_flat sel).2))
  | .rect2 m => .rect2 (scatterIdx m idx (f (select m idx)))

/-- `CombinedDataset.normalise`: handles `'corpus'` itself and delegates every
other scheme to `Dataset.normalise`. -/
def normaliseC (d : NormDS α) (f : List (List α) → List (List α))
    (scheme : String) : NormDS α :=
  if scheme = "corpus" then
    let x2 := (List.range d.corpora.length).foldl
      (normCorpusStep f d.corpus_indices) d.x
    { d with x := x2 }
  else normaliseD d f scheme

/-- The error taxonomy of dataset construction, one constructor per raise
site of the source: `unsupportedFormat` is `NotImplementedError('Unknown
filetype.')`, `missingMetadata` is the `AttributeError` for a netCDF file
without corpus metadata, `unknownCorpus` is `NotImplementedError("Corpus ...
hasn't been implemented yet.")`, `unknownClass` is the `ValueError` of
`self.classes.index(label)` on a label outside the taxonomy, and `other`
covers the remaining untyped Python failures on the same paths
(`TypeError` iterating `labels=None`, `ValueError` of `speakers.index`). -/
inductive DatasetError where
  | unsupportedFormat
  | missingMetadata
  | unknownCorpus
  | unknownClass
  | other
  deriving DecidableEq

/-- Contents of a netCDF container: optional corpus attribute, instance
names (file stems), the flat feature buffer with its slice lengths, and the
optional `label_nominal` variable. -/
structure NCFile (α : Type u) where
  corpus : Option String
  names : List String
  x : List (List α)
  slices : List Nat
  labels : Option (List String)

/-- The canonical tuple a backend hands to `Dataset.__init__`. -/
structure BackendOut (α : Type u) where
  corpus : String
  names : List String
  features : ReshapeResult α
  labels : Option (List String)

/-- `NetCDFBackend.__init__`: fails when the container has no `corpus`
attribute, otherwise reshapes the flat buffer by the slice lengths. -/
def netcdfBackend (f : NCFile α) : Except DatasetError (BackendOut α) :=
  match f.corpus with
  | none => .error .missingMetadata
  | some c =>
      .ok { corpus := c, names := f.names,
            features := reshape_data_array f.x f.slices, labels := f.labels }

/-- One entry of the external `corpora` metadata table. -/
structure CorpusMeta where
  speakers : List String
  get_speaker : String → String
  speaker_groups : List (List String)
  emotion_map_values : List String

/-- A source path, abstracted to its list of suffixes
(`path.suffixes`; `path.suffix` is the last one). -/
structure PathModel where
  suffixes : List String

/-- `path.suffix`. -/
def lastSuffix (p : PathModel) : Option String := p.suffixes.getLast?

/-- `path.suffixes[0]` (when present). -/
def headSuffix (p : PathModel) : Option String := p.suffixes.head?

/-- The dataset produced when construction succeeds. -/
structure DSOut (α : Type u) where
  corpus : String
  names : List String
  features : ReshapeResult α
  speakers : List String
  speaker_indices : List Nat
  speaker_counts : List Nat
  speaker_groups : List (List String)
  speaker_group_indices : List Nat
  classes : List String
  y : List Nat
  class_counts : List Nat

/-- `speakers.index(s)`: `ValueError` (modelled `.other`) when absent. -/
def speakerToInt (speakers : List String) (s : String) : Except DatasetError Nat :=
  if s ∈ speakers then .ok (speakers.indexOf s) else .error .other

/-- `LabelledDataset.class_to_int`: `self.classes.index(c)`, whose
`ValueError` on an unknown label is the `unknownClass` failure. -/
def classToInt (classes : List String) (c : String) : Except DatasetError Nat :=
  if c ∈ classes then .ok (classes.indexOf c) else .error .unknownClass

/-- A Python list comprehension over a fallible element function: the first
exception aborts the construction. -/
def mapExceptNat (g : String → Except DatasetError Nat) :
    List String → Except DatasetError (List Nat)
  | [] => .ok []
  | c :: rest => do
      let i ← g c
      let t ← mapExceptNat g rest
      pure (i :: t)

/-- The backend dispatch at the top of `Dataset.__init__`: `.nc` files go to
the netCDF backend, `.txt` to the raw-audio backend, a first suffix of
`.arff` to the ARFF backend, and anything else raises
`NotImplementedError('Unknown filetype.')`. -/
def backendFor (p : PathModel) (nc : NCFile α) (txtOut arffOut : BackendOut α) :
    Except DatasetError (BackendOut α) :=
  if lastSuffix p = some ".nc" then netcdfBackend nc
  else if lastSuffix p = some ".txt" then .ok txtOut
  else if headSuffix p = some ".arff" then .ok arffOut
  else .error .unsupportedFormat

/-- `LabelledDataset.__init__` (which runs `Dataset.__init__` first): suffix
dispatch to a backend, corpus lookup in the external `corpora` table (keyed
by the lower-cased name; `lower` is Python's `str.lower`), derivation of the
speaker and speaker-group indices, then label resolution through
`class_to_int`.  Every failure aborts the construction, so no dataset value
exists on an error.  The raw-audio and ARFF backends read external resources,
so their successful outputs are parameters; gender subsets are omitted (no
claim touches them). -/
def labelled_dataset_init (p : PathModel) (nc : NCFile α)
    (txtOut arffOut : BackendOut α) (lower : String → String)
    (tbl : List (String × CorpusMeta)) : Except DatasetError (DSOut α) :=
  match backendFor p nc txtOut arffOut with
  | .error e => .error e
  | .ok b =>
    match tbl.lookup (lower b.corpus) with
    | none => .error .unknownCorpus
    | some meta =>
      match mapExceptNat (fun n => speakerToInt meta.speakers (meta.get_speaker n)) b.names with
      | .error e => .error e
      | .ok si =>
        let spToGroup := meta.speakers.flatMap
            (fun s => idxWhere meta.speaker_groups (fun g => decide (s ∈ g)))
        let sgi := si.map (fun i => spToGroup.getD i 0)
        match b.labels with
        | none => .error .other
        | some ls =>
          match mapExceptNat (classToInt meta.emotion_map_values) ls with
          | .error e => .error e
          | .ok y =>
            .ok { corpus := b.corpus, names := b.names, features := b.features,
                  speakers := meta.speakers, speaker_indices := si,
                  speaker_counts := bincount si meta.speakers.length,
                  speaker_groups := meta.speaker_groups,
                  speaker_group_indices := sgi,
                  classes := meta.emotion_map_values, y := y,
                  class_counts := bincount y 0 }

/-- A small concrete dataset used to evaluate `normalise` on an unknown
scheme. -/
def ndEx : NormDS Int :=
  { x := .rect2 [[1], [2]], speakers := ["s"], speaker_indices := [0, 0],
    speaker_counts := [2], corpora := ["A"], corpus_indices := [0, 0] }

/-- The merged dataset of §8 of the spec, with class names encoded
`angry = 0`, `happy = 1`, `sad = 2`: corpus A precedes corpus B. -/
def cdEx : CDS Nat Nat :=
  { corpus := "combined", corpora := ["A", "B"], corpus_indices := [0, 0, 1, 1, 1],
    x := [100, 101, 200, 201, 202],
    names := ["A_a1", "A_a2", "B_b1", "B_b2", "B_b3"],
    speakers := ["A_p1", "B_p2"], speaker_indices := [0, 0, 1, 1, 1],
    speaker_groups := [["A_p1"], ["B_p2"]], speaker_group_indices := [0, 0, 1, 1, 1],
    classes := [0, 1, 2], y := [1, 2, 2, 2, 0] }

/-- Corpus A of the §8 example: classes `{happy, sad}` (encoded 1, 2),
two instances. -/
def dsA : LDS Nat Nat :=
  { corpus := "A", x := [100, 101], names := ["a1", "a2"], speakers := ["p1"],
    speaker_indices := [0, 0], speaker_counts := [2], speaker_groups := [["p1"]],
    speaker_group_indices := [0, 0], classes := [1, 2], y := [0, 1],
    class_counts := [1, 1] }

/-- Corpus B of the §8 example: classes `{sad, angry}` (encoded 2, 0),
three instances. -/
def dsB : LDS Nat Nat :=
  { corpus := "B", x := [200, 201, 202], names := ["b1", "b2", "b3"],
    speakers := ["p2"], speaker_indices := [0, 0, 0], speaker_counts := [3],
    speaker_groups := [["p2"]], speaker_group_indices := [0, 0, 0],
    classes := [0, 2], y := [1, 1, 0], class_counts := [1, 2] }

/-- A labelled dataset whose class taxonomy has a class (`2`) with no
instances. -/
def ldC : LDS Nat Nat :=
  { corpus := "C", x := [7], names := ["n"], speakers := ["s"],
    speaker_indices := [0], speaker_counts := [1], speaker_groups := [["s"]],
    speaker_group_indices := [0], classes := [0, 1, 2], y := [0],
    class_counts := [1] }

/-- A labelled dataset with two speakers in one speaker group; the second
instance's speaker index is 1 while its speaker-group index is 0. -/
def ldG : LDS Nat Nat :=
  { corpus := "G", x := [0, 1], names := ["n0", "n1"], speakers := ["s0", "s1"],
    speaker_indices := [0, 1], speaker_counts := [1, 1],
    speaker_groups := [["s0", "s1"]], speaker_group_indices := [0, 0],
    classes := [0], y := [0, 0], class_counts := [2] }

/-- A path with an unrecognized suffix. -/
def pCsv : PathModel := { suffixes := [".csv"] }

/-- A netCDF path. -/
def pNc : PathModel := { suffixes := [".nc"] }

/-- A netCDF container with no corpus attribute. -/
def ncNoCorpus : NCFile Int :=
  { corpus := none, names := [], x := [], slices := [], labels := none }

/-- A netCDF container whose corpus name is nowhere in the metadata table. -/
def ncZZZ : NCFile Int :=
  { corpus := some "zzz", names := [], x := [], slices := [], labels := none }

/-- A netCDF container carrying a label outside the declared taxonomy. -/
def ncBadLabel : NCFile Int :=
  { corpus := some "corp", names := ["n1"], x := [[1]], slices := [1],
    labels := some ["weird"] }

/-- Metadata for the corpus `corp`: one speaker, one group, taxonomy
`["good"]`. -/
def metaEx : CorpusMeta :=
  { speakers := ["s"], get_speaker := fun _ => "s", speaker_groups := [["s"]],
    emotion_map_values := ["good"] }

/-- A successful backend output used where the dispatch does not reach the
backend under test. -/
def boDummy : BackendOut Int :=
  { corpus := "c", names := [], features := .rect2 [], labels := none }

/-- The metadata table containing only `corp`. -/
def tblEx : List (String × CorpusMeta) := [("corp", metaEx)]

/-- The backend output produced by the netCDF backend on `ncZZZ`. -/
def boZZZ : BackendOut Int :=
  { corpus := "zzz", names := [], features := .rect2 [], labels := none }

/-- The backend output produced by the netCDF backend on `ncBadLabel`. -/
def boCorp : BackendOut Int :=
  { corpus := "corp", names := ["n1"], features := .rect2 [[1]],
    labels := some ["weird"] }

/-- A netCDF container that constructs successfully against `tblEx`. -/
def ncGood : NCFile Int :=
  { corpus := some "corp", names := ["n1"], x := [[1]], slices := [1],
    labels := some ["good"] }

/-- The dataset produced by constructing from `ncGood` with table `tblEx`. -/
def dsOutGood : DSOut Int :=
  { corpus := "corp", names := ["n1"], features := .rect2 [[1]],
    speakers := ["s"], speaker_indices := [0], speaker_counts := [1],
    speaker_groups := [["s"]], speaker_group_indices := [0],
    classes := ["good"], y := [0], class_counts := [1] }

section ListLemmas

/-- Every index produced by `idxWhere` is in range. -/
theorem idxWhere_lt (l : List β) (p : β → Bool) : ∀ i ∈ idxWhere l p, i < l.length := by
  induction l with
  | nil => simp [idxWhere]
  | cons b t ih =>
    intro i hi
    cases hb : p b <;> rw [idxWhere, hb] at hi
    · simp only [Bool.false_eq_true, if_false, List.mem_map] at hi
      obtain ⟨j, hj, rfl⟩ := hi
      have := ih j hj
      simp only [List.length_cons]
      omega
    · simp only [if_true, List.mem_cons, List.mem_map] at hi
      rcases hi with rfl | ⟨j, hj, rfl⟩
      · simp
      · have := ih j hj
        simp only [List.length_cons]
        omega

/-- Shifting every index up by one skips the head of the list. -/
theorem select_shift (b : β) (t : List β) (idx : List Nat) :
    select (b :: t) (idx.map (· + 1)) = select t idx := by
  induction idx with
  | nil => rfl
  | cons i r ih =>
    simp only [select, List.map_cons, List.filterMap_cons] at ih ⊢
    have h1 : (b :: t).get? (i + 1) = t.get? i := rfl
    rw [h1]
    cases t.get? i <;> simp [ih]

/-- Selecting the indices where `p` holds is filtering by `p`. -/
theorem select_idxWhere (l : List β) (p : β → Bool) :
    select l (idxWhere l p) = l.filter p := by
  induction l with
  | nil => rfl
  | cons b t ih =>
    cases hb : p b
    · rw [idxWhere, hb]
      simp only [Bool.false_eq_true, if_false]
      rw [select_shift, ih, List.filter_cons, hb]
      simp
    · rw [idxWhere, hb]
      simp only [if_true]
      rw [List.filter_cons, hb]
      simp only [if_true]
      show List.filterMap (b :: t).get? (0 :: (idxWhere t p).map (· + 1)) = b :: t.filter p
      rw [List.filterMap_cons]
      have h0 : (b :: t).get? 0 = some b := rfl
      rw [h0]
      have h2 := select_shift b t (idxWhere t p)
      simp only [select] at h2 ih
      rw [h2, ih]

/-- `select` over in-range indices has the length of the index list. -/
theorem select_length (l : List β) (idx : List Nat)
    (h : ∀ i ∈ idx, i < l.length) : (select l idx).length = idx.length := by
  induction idx with
  | nil => rfl
  | cons i t ih =>
    have hi : i < l.length := h i (List.mem_cons_self i t)
    have h1 : l.get? i = some (l.get ⟨i, hi⟩) := List.get?_eq_get hi
    simp only [select, List.filterMap_cons, h1]
    have h2 := ih (fun j hj => h j (List.mem_cons_of_mem i hj))
    simp only [select] at h2
    simp [h2]

/-- Unfolding equation for `make_ragged` at a length vector with at least two
entries. -/
theorem make_ragged_cons2 (flat : List (List α)) (s b : Nat) (t : List Nat) :
    make_ragged flat (s :: b :: t) = flat.take s :: make_ragged (flat.drop s) (b :: t) := by
  simp [make_ragged]

/-- Splitting a concatenation at the recorded lengths restores the pieces. -/
theorem make_ragged_flatten (d : List (List α)) (rest : List (List (List α))) :
    make_ragged ((d :: rest).flatten) ((d :: rest).map List.length) = d :: rest := by
  induction rest generalizing d with
  | nil => simp [make_ragged]
  | cons e r ih =>
    have ihe := ih e
    simp only [List.map_cons, List.flatten_cons] at ihe ⊢
    rw [make_ragged_cons2, List.take_left, List.drop_left, ihe]

/-- The pieces produced by `make_ragged` have exactly the requested lengths
whenever the lengths sum to the size of the flat buffer. -/
theorem make_ragged_lengths (flat : List (List α)) (slices : List Nat)
    (hne : slices ≠ []) (hsum : slices.sum = flat.length) :
    (make_ragged flat slices).map List.length = slices := by
  induction slices generalizing flat with
  | nil => exact absurd rfl hne
  | cons s t ih =>
    cases t with
    | nil =>
      simp only [List.sum_cons, List.sum_nil, Nat.add_zero] at hsum
      simp [make_ragged, hsum]
    | cons b r =>
      have hs : s ≤ flat.length := by
        simp only [List.sum_cons] at hsum
        omega
      rw [make_ragged_cons2, List.map_cons, List.length_take, Nat.min_eq_left hs,
        ih (flat.drop s) (by simp) (by simp only [List.sum_cons] at hsum ⊢; simp; omega)]

/-- `bincount` always has length `bcLen`. -/
theorem bincount_length (l : List Nat) (m : Nat) : (bincount l m).length = bcLen l m := by
  simp [bincount]

/-- Entry `j` of `bincount` is the number of occurrences of `j`. -/
theorem bincount_getD (l : List Nat) (m j : Nat) (h : j < bcLen l m) :
    (bincount l m).getD j 0 = l.count j := by
  simp [bincount, List.getD_eq_getElem?_getD, List.getElem?_map, List.getElem?_range h]

/-- Every member is at most the `foldr max 0` of the list. -/
theorem le_foldr_max {l : List Nat} {a : Nat} (h : a ∈ l) : a ≤ l.foldr max 0 := by
  induction l with
  | nil => simp at h
  | cons b t ih =>
    rcases List.mem_cons.mp h with rfl | h
    · exact le_max_left _ _
    · exact le_trans (ih h) (le_max_right _ _)

/-- `foldr max 0` of a list of naturals all below `n > 0` stays below `n`. -/
theorem foldr_max_lt {l : List Nat} {n : Nat} (hn : 0 < n) (h : ∀ a ∈ l, a < n) :
    l.foldr max 0 < n := by
  induction l with
  | nil => exact hn
  | cons b t ih =>
    exact max_lt (h b (List.mem_cons_self b t)) (ih (fun a ha => h a (List.mem_cons_of_mem b ha)))

/-- With no `minlength`, `bcLen` is bounded by any strict bound on the values. -/
theorem bcLen_le {l : List Nat} {n : Nat} (h : ∀ a ∈ l, a < n) : bcLen l 0 ≤ n := by
  cases l with
  | nil => exact Nat.zero_le n
  | cons b t =>
    have hn : 0 < n := Nat.pos_of_lt_add_right (Nat.lt_of_lt_of_le (h b (by simp)) (by omega))
    have := foldr_max_lt hn h (l := b :: t)
    simp only [bcLen, Nat.zero_max]
    omega

/-- With no `minlength`, `bcLen` reaches `n` exactly when `n - 1` occurs. -/
theorem bcLen_eq {l : List Nat} {n : Nat} (h : ∀ a ∈ l, a < n) (hmem : (n - 1) ∈ l) :
    bcLen l 0 = n := by
  have hn : 0 < n := Nat.lt_of_le_of_lt (Nat.zero_le _) (h _ hmem)
  cases l with
  | nil => simp at hmem
  | cons b t =>
    have h1 : (b :: t).foldr max 0 ≤ n - 1 := Nat.le_sub_one_of_lt (foldr_max_lt hn h)
    have h2 : n - 1 ≤ (b :: t).foldr max 0 := le_foldr_max hmem
    simp only [bcLen, Nat.zero_max]
    omega

/-- Elements of `repeatIdx sizes start` lie in `[start, start + sizes.length)`. -/
theorem mem_repeatIdx {sizes : List Nat} {start a : Nat} (h : a ∈ repeatIdx sizes start) :
    start ≤ a ∧ a < start + sizes.length := by
  induction sizes generalizing start with
  | nil => simp [repeatIdx] at h
  | cons s t ih =>
    simp only [repeatIdx, List.mem_append, List.mem_replicate] at h
    rcases h with ⟨-, rfl⟩ | h
    · simp
    · have := ih h
      simp only [List.length_cons]
      omega

/-- The number of occurrences of `start + j` in `repeatIdx sizes start`
is `sizes[j]`. -/
theorem count_repeatIdx (sizes : List Nat) (start j : Nat) (hj : j < sizes.length) :
    (repeatIdx sizes start).count (start + j) = sizes.getD j 0 := by
  induction sizes generalizing start j with
  | nil => simp at hj
  | cons s t ih =>
    simp only [repeatIdx, List.count_append]
    cases j with
    | zero =>
      have h1 : (List.replicate s start).count (start + 0) = s := by
        simp [List.count_replicate]
      have h2 : (repeatIdx t (start + 1)).count (start + 0) = 0 := by
        rw [List.count_eq_zero]
        intro hmem
        have := (mem_repeatIdx hmem).1
        omega
      rw [h1, h2]
      rfl
    | succ j' =>
      have h1 : (List.replicate s start).count (start + (j' + 1)) = 0 := by
        rw [List.count_eq_zero]
        intro hmem
        have := (List.eq_of_mem_replicate hmem).symm
        omega
      have h2 : (repeatIdx t (start + 1)).count (start + (j' + 1))
          = t.getD j' 0 := by
        have := ih (start + 1) j' (by simpa using Nat.lt_of_succ_lt_succ (by simpa using hj))
        have harith : start + 1 + j' = start + (j' + 1) := by omega
        rw [harith] at this
        exact this
      rw [h1, h2]
      simp

/-- `start + j` occurs in `repeatIdx sizes start` whenever `sizes[j] > 0`. -/
theorem mem_repeatIdx_of (sizes : List Nat) (start j : Nat) (hj : j < sizes.length)
    (hpos : 0 < sizes.getD j 0) : (start + j) ∈ repeatIdx sizes start := by
  induction sizes generalizing start j with
  | nil => simp at hj
  | cons s t ih =>
    simp only [repeatIdx, List.mem_append]
    cases j with
    | zero =>
      left
      simp only [List.getD_cons_zero] at hpos
      simp [List.mem_replicate]
      omega
    | succ j' =>
      right
      have := ih (start + 1) j' (by simpa using Nat.lt_of_succ_lt_succ (by simpa using hj))
        (by simpa using hpos)
      have harith : start + 1 + j' = start + (j' + 1) := by omega
      rwa [harith] at this

end ListLemmas

section SortHelpers

variable {L : Type} [LinearOrder L]

/-- Membership is preserved by `sortDedup`. -/
theorem mem_sortDedup {l : List L} {a : L} : a ∈ sortDedup l ↔ a ∈ l := by
  unfold sortDedup
  rw [(List.perm_insertionSort _ _).mem_iff, List.mem_dedup]

/-- `sortDedup` is sorted by `≤`. -/
theorem sortDedup_sorted (l : List L) : (sortDedup l).Sorted (· ≤ ·) :=
  List.sorted_insertionSort _ _

/-- `sortDedup` has no duplicates. -/
theorem sortDedup_nodup (l : List L) : (sortDedup l).Nodup :=
  ((List.perm_insertionSort _ l.dedup).symm).nodup (List.nodup_dedup l)

end SortHelpers

/-- Reading a list at the index of a member returns that member. -/
theorem getD_indexOf [DecidableEq L] {l : List L} {a : L} (h : a ∈ l) (d : L) :
    l.getD (l.indexOf a) d = a := by
  have hlt : l.indexOf a < l.length := List.indexOf_lt_length.mpr h
  rw [List.getD_eq_getElem?_getD, List.getElem?_eq_getElem hlt]
  simpa [List.get_eq_getElem] using List.indexOf_get hlt

/-- `getD` on a mapped list at an in-range index. -/
theorem getD_map_of_lt (f : β → δ) (l : List β) (i : Nat) (h : i < l.length)
    (d0 : δ) (d1 : β) : (l.map f).getD i d0 = f (l.getD i d1) := by
  rw [List.getD_eq_getElem?_getD, List.getElem?_map, List.getElem?_eq_getElem h,
    List.getD_eq_getElem?_getD, List.getElem?_eq_getElem h]
  rfl

/-- A list of positive naturals is at least as long as its sum is large. -/
theorem length_le_sum_ones {l : List Nat} (h : ∀ s ∈ l, 1 ≤ s) : l.length ≤ l.sum := by
  induction l with
  | nil => simp
  | cons b t ih =>
    have hb := h b (List.mem_cons_self b t)
    have := ih (fun s hs => h s (List.mem_cons_of_mem b hs))
    simp only [List.length_cons, List.sum_cons]
    omega

/-- Positive entries summing to the length are all `1`. -/
theorem sum_eq_length_forces_ones {l : List Nat} (h1 : ∀ s ∈ l, 1 ≤ s)
    (h2 : l.sum = l.length) : ∀ s ∈ l, s = 1 := by
  induction l with
  | nil => simp
  | cons b t ih =>
    have hb := h1 b (List.mem_cons_self b t)
    have hlen := length_le_sum_ones (fun s hs => h1 s (List.mem_cons_of_mem b hs))
    simp only [List.sum_cons, List.length_cons] at h2
    intro s hs
    rcases List.mem_cons.mp hs with rfl | hs
    · omega
    · exact ih (fun u hu => h1 u (List.mem_cons_of_mem b hu)) (by omega) s hs

/-- C10: for every scheme string other than `'all'` and `'speaker'` (and, for
a `CombinedDataset`, other than `'corpus'`), `normalise` matches no branch of
the dispatch, raises no error, and returns every per-instance array — indeed
the whole dataset state — unchanged. -/
theorem normalise_unknown_scheme_noop {α : Type} (d c : NormDS α)
    (f : List (List α) → List (List α)) (scheme : String)
    (h1 : scheme ≠ "all") (h2 : scheme ≠ "speaker") (h3 : scheme ≠ "corpus") :
    normaliseD d f scheme = d ∧ normaliseC c f scheme = c := by
  refine ⟨?_, ?_⟩ <;> simp [normaliseD, normaliseC, h1, h2, h3]

/-- Witness for `normalise_unknown_scheme_noop` at the scheme `"minmax"`. -/
theorem normalise_unknown_scheme_noop_witness :
    (("minmax" ≠ "all") ∧ ("minmax" ≠ "speaker") ∧ ("minmax" ≠ "corpus")) ∧
    (normaliseD ndEx id "minmax" = ndEx ∧ normaliseC ndEx id "minmax" = ndEx) :=
  ⟨⟨by decide, by decide, by decide⟩,
   normalise_unknown_scheme_noop ndEx ndEx id "minmax" (by decide) (by decide)
     (by decide)⟩

/-- C9: for a corpus name in the corpora list, `get_corpus_split` returns
exactly the instance indices whose `corpus_indices` entry is the corpus's
index, and exactly the complementary indices; together they partition
`{0, ..., n_instances - 1}`. -/
theorem get_corpus_split_partition {γ L : Type} (c : CDS γ L) (s : String)
    (hmem : s ∈ c.corpora) :
    (∀ i, i ∈ (get_corpus_split c s).1 ↔
        (i < c.corpus_indices.length ∧ c.corpus_indices.getD i 0 = corpus_to_idx c s)) ∧
    (∀ i, i ∈ (get_corpus_split c s).2 ↔
        (i < c.corpus_indices.length ∧ c.corpus_indices.getD i 0 ≠ corpus_to_idx c s)) ∧
    (∀ i, i < c.corpus_indices.length →
        ((i ∈ (get_corpus_split c s).1 ∧ i ∉ (get_corpus_split c s).2) ∨
         (i ∈ (get_corpus_split c s).2 ∧ i ∉ (get_corpus_split c s).1))) := by
  have hm1 : ∀ i, i ∈ (get_corpus_split c s).1 ↔
      (i < c.corpus_indices.length ∧ c.corpus_indices.getD i 0 = corpus_to_idx c s) := by
    intro i
    simp [get_corpus_split, List.mem_filter, List.mem_range]
  have hm2 : ∀ i, i ∈ (get_corpus_split c s).2 ↔
      (i < c.corpus_indices.length ∧ c.corpus_indices.getD i 0 ≠ corpus_to_idx c s) := by
    intro i
    simp [get_corpus_split, List.mem_filter, List.mem_range]
  refine ⟨hm1, hm2, ?_⟩
  intro i hi
  by_cases he : c.corpus_indices.getD i 0 = corpus_to_idx c s
  · left
    refine ⟨(hm1 i).mpr ⟨hi, he⟩, ?_⟩
    intro hcontra
    exact ((hm2 i).mp hcontra).2 he
  · right
    refine ⟨(hm2 i).mpr ⟨hi, he⟩, ?_⟩
    intro hcontra
    exact he ((hm1 i).mp hcontra).2

/-- Witness for `get_corpus_split_partition` at the merged §8 example:
corpus A's indices are `{0, 1}` and the complement is `{2, 3, 4}`. -/
theorem get_corpus_split_partition_witness :
    ("A" ∈ cdEx.corpora) ∧
    (get_corpus_split cdEx "A" = ([0, 1], [2, 3, 4])) ∧
    ((∀ i, i ∈ (get_corpus_split cdEx "A").1 ↔
        (i < cdEx.corpus_indices.length ∧
          cdEx.corpus_indices.getD i 0 = corpus_to_idx cdEx "A")) ∧
     (∀ i, i ∈ (get_corpus_split cdEx "A").2 ↔
        (i < cdEx.corpus_indices.length ∧
          cdEx.corpus_indices.getD i 0 ≠ corpus_to_idx cdEx "A")) ∧
     (∀ i, i < cdEx.corpus_indices.length →
        ((i ∈ (get_corpus_split cdEx "A").1 ∧ i ∉ (get_corpus_split cdEx "A").2) ∨
         (i ∈ (get_corpus_split cdEx "A").2 ∧ i ∉ (get_corpus_split cdEx "A").1)))) :=
  ⟨by decide, by decide, get_corpus_split_partition cdEx "A" (by decide)⟩

/-- C3: flatten/unflatten round-trip — for a non-empty ragged sequence of
2-D arrays (common column count, at least one row each), `_make_ragged`
applied to the output of `_make_flat` restores the input elementwise. -/
theorem make_flat_make_ragged_roundtrip {α : Type} (data : List (List (List α)))
    (F : Nat) (h1 : data ≠ []) (h2 : ∀ a ∈ data, a ≠ [])
    (h3 : ∀ a ∈ data, ∀ r ∈ a, r.length = F) :
    make_ragged (make_flat data).1 (make_flat data).2 = data := by
  obtain ⟨d, rest, rfl⟩ := List.exists_cons_of_ne_nil h1
  exact make_ragged_flatten d rest

/-- Witness for `make_flat_make_ragged_roundtrip` on a two-instance ragged
array with 2 columns. -/
theorem make_flat_make_ragged_roundtrip_witness :
    ((([[[1, 2]], [[3, 4], [5, 6]]] : List (List (List Int))) ≠ []) ∧
     (∀ a ∈ ([[[1, 2]], [[3, 4], [5, 6]]] : List (List (List Int))), a ≠ []) ∧
     (∀ a ∈ ([[[1, 2]], [[3, 4], [5, 6]]] : List (List (List Int))),
        ∀ r ∈ a, r.length = 2)) ∧
    make_ragged (make_flat [[[1, 2]], [[3, 4], [5, 6]]]).1
        (make_flat [[[1, 2]], [[3, 4], [5, 6]]]).2
      = ([[[1, 2]], [[3, 4], [5, 6]]] : List (List (List Int))) :=
  ⟨⟨by decide, by decide, by decide⟩,
   make_flat_make_ragged_roundtrip _ 2 (by decide) (by decide) (by decide)⟩

/-- C2 counterexample: for `x = [[1],[2]]` and `slices = [1,1]`, every slice
entry equals `L = 1`, yet `_reshape_data_array` returns the 2-D array
unchanged (the `len(x) == len(slices)` branch wins), not a rectangular 3-D
array of shape `(2, 1, 1)`. -/
theorem reshape_equal_slices_len1_not_rect3 :
    (([1, 1] : List Nat).all (fun s => decide (s = ([1, 1] : List Nat).getD 0 0)) = true) ∧
    reshape_data_array [[(1 : Int)], [2]] [1, 1] = ReshapeResult.rect2 [[1], [2]] ∧
    (reshape_data_array [[(1 : Int)], [2]] [1, 1]).isRect3 = false :=
  ⟨by decide, by decide, by decide⟩

/-- C2 (amended): the three-way dispatch of `_reshape_data_array` in source
order.  If `len(x) == len(slices)` the 2-D array is returned unchanged; if
the slice entries are all equal to `L` *and* `len(x) ≠ len(slices)` the
result is a rectangular 3-D array of shape `(len(slices), L, F)`; if the
entries are unequal (with entries ≥ 1 summing to `len(x)`) the result is a
ragged array whose `i`-th element has exactly `slices[i]` rows. -/
theorem reshape_three_way_dispatch {α : Type}
    (x₁ : List (List α)) (s₁ : List Nat)
    (x₂ : List (List α)) (s₂ : List Nat) (L F : Nat)
    (x₃ : List (List α)) (s₃ : List Nat)
    (h₁ : x₁.length = s₁.length)
    (h₂a : ∀ s ∈ s₂, s = L) (h₂b : x₂.length ≠ s₂.length) (h₂c : s₂ ≠ [])
    (h₂sum : s₂.sum = x₂.length) (h₂F : ∀ r ∈ x₂, r.length = F)
    (h₃a : ∃ a ∈ s₃, ∃ b ∈ s₃, a ≠ b) (h₃pos : ∀ s ∈ s₃, 1 ≤ s)
    (h₃sum : s₃.sum = x₃.length) :
    (reshape_data_array x₁ s₁ = ReshapeResult.rect2 x₁) ∧
    (∃ t, reshape_data_array x₂ s₂ = ReshapeResult.rect3 t ∧
      t.length = s₂.length ∧ (∀ c ∈ t, c.length = L) ∧
      (∀ c ∈ t, ∀ r ∈ c, r.length = F)) ∧
    (∃ t, reshape_data_array x₃ s₃ = ReshapeResult.ragged t ∧
      t.map List.length = s₃) := by
  refine ⟨?_, ?_, ?_⟩
  · simp [reshape_data_array, h₁]
  · have hn0 : 0 < s₂.length := List.length_pos.mpr h₂c
    have hrep : s₂ = List.replicate s₂.length L :=
      List.eq_replicate.mpr ⟨rfl, h₂a⟩
    have hsum' : x₂.length = s₂.length * L := by
      conv_lhs => rw [← h₂sum]
      conv_lhs => rw [hrep]
      simp [List.sum_replicate, smul_eq_mul]
    have hL : x₂.length / s₂.length = L := by
      rw [hsum', Nat.mul_div_cancel_left L hn0]
    have hcond : s₂.all (fun s => decide (s = s₂.getD 0 0)) = true := by
      rw [List.all_eq_true]
      intro s hs
      obtain ⟨a, t, rfl⟩ := List.exists_cons_of_ne_nil h₂c
      have ha : a = L := h₂a a (List.mem_cons_self a t)
      have hsL : s = L := h₂a s hs
      simp [List.getD_cons_zero, ha, hsL]
    refine ⟨chunkRows x₂ s₂.length L, ?_, ?_, ?_, ?_⟩
    · rw [reshape_data_array, if_neg h₂b, if_pos hcond, hL]
    · simp [chunkRows]
    · intro c hc
      simp only [chunkRows, List.mem_map, List.mem_range] at hc
      obtain ⟨i, hi, rfl⟩ := hc
      have hmul : (i + 1) * L ≤ s₂.length * L :=
        Nat.mul_le_mul_right L (by omega)
      rw [Nat.succ_mul] at hmul
      simp only [List.length_take, List.length_drop]
      omega
    · intro c hc r hr
      simp only [chunkRows, List.mem_map, List.mem_range] at hc
      obtain ⟨i, hi, rfl⟩ := hc
      exact h₂F r (List.mem_of_mem_drop (List.mem_of_mem_take hr))
  · obtain ⟨a, ha, b, hb, hab⟩ := h₃a
    have hne3 : s₃ ≠ [] := List.ne_nil_of_mem ha
    have hne1 : x₃.length ≠ s₃.length := by
      intro he
      have hall := sum_eq_length_forces_ones h₃pos (by rw [h₃sum, he])
      exact hab ((hall a ha).trans (hall b hb).symm)
    have hallne : s₃.all (fun s => decide (s = s₃.getD 0 0)) = false := by
      rw [Bool.eq_false_iff]
      intro hall
      rw [List.all_eq_true] at hall
      have h1 := hall a ha
      have h2 := hall b hb
      simp only [decide_eq_true_eq] at h1 h2
      exact hab (h1.trans h2.symm)
    have hcond3 : ¬(s₃.all (fun s => decide (s = s₃.getD 0 0)) = true) := by
      rw [hallne]
      exact Bool.false_ne_true
    refine ⟨make_ragged x₃ s₃, ?_, make_ragged_lengths x₃ s₃ hne3 h₃sum⟩
    rw [reshape_data_array, if_neg hne1, if_neg hcond3]

/-- Witness for `reshape_three_way_dispatch`: a pass-through input, an
all-equal-slices input with `L = 2`, and an unequal-slices input. -/
theorem reshape_three_way_dispatch_witness :
    (([[(1 : Int)], [2]] : List (List Int)).length = ([1, 1] : List Nat).length ∧
     (∀ s ∈ ([2, 2] : List Nat), s = 2) ∧
     ([[(1 : Int)], [2], [3], [4]] : List (List Int)).length ≠ ([2, 2] : List Nat).length ∧
     ([2, 2] : List Nat) ≠ [] ∧
     ([2, 2] : List Nat).sum = ([[(1 : Int)], [2], [3], [4]] : List (List Int)).length ∧
     (∀ r ∈ ([[(1 : Int)], [2], [3], [4]] : List (List Int)), r.length = 1) ∧
     (∃ a ∈ ([1, 2] : List Nat), ∃ b ∈ ([1, 2] : List Nat), a ≠ b) ∧
     (∀ s ∈ ([1, 2] : List Nat), 1 ≤ s) ∧
     ([1, 2] : List Nat).sum = ([[(1 : Int)], [2], [3]] : List (List Int)).length) ∧
    ((reshape_data_array [[(1 : Int)], [2]] [1, 1] = ReshapeResult.rect2 [[1], [2]]) ∧
     (∃ t, reshape_data_array [[(1 : Int)], [2], [3], [4]] [2, 2]
          = ReshapeResult.rect3 t ∧
        t.length = ([2, 2] : List Nat).length ∧ (∀ c ∈ t, c.length = 2) ∧
        (∀ c ∈ t, ∀ r ∈ c, r.length = 1)) ∧
     (∃ t, reshape_data_array [[(1 : Int)], [2], [3]] [1, 2]
          = ReshapeResult.ragged t ∧ t.map List.length = [1, 2])) :=
  ⟨⟨by decide, by decide, by decide, by decide, by decide, by decide, by decide,
    by decide, by decide⟩,
   reshape_three_way_dispatch [[(1 : Int)], [2]] [1, 1]
     [[(1 : Int)], [2], [3], [4]] [2, 2] 2 1 [[(1 : Int)], [2], [3]] [1, 2]
     (by decide) (by decide) (by decide) (by decide) (by decide) (by decide)
     (by decide) (by decide) (by decide)⟩

/-- `getD` at an in-range index returns a member of the list. -/
theorem getD_mem {l : List β} {i : Nat} (h : i < l.length) (d : β) : l.getD i d ∈ l := by
  rw [List.getD_eq_getElem?_getD, List.getElem?_eq_getElem h]
  exact List.getElem_mem h

/-- C4: `map_classes(m)` removes no instance (`names`, `x` and the length of
`y` are unchanged), the new class list is the sorted deduplication of the
image of the old classes under `m ∪ identity`, and every instance's new class
name is the image of its old class name. -/
theorem map_classes_spec {γ L : Type} [LinearOrder L] (d : LDS γ L)
    (m : List (L × L)) (hWF : ∀ i ∈ d.y, i < d.classes.length) :
    (map_classes d m).names = d.names ∧
    (map_classes d m).x = d.x ∧
    (map_classes d m).y.length = d.y.length ∧
    (map_classes d m).classes.Sorted (· ≤ ·) ∧
    (map_classes d m).classes.Nodup ∧
    (∀ a, a ∈ (map_classes d m).classes ↔ a ∈ d.classes.map (mget m)) ∧
    (∀ p, p < d.y.length → ∀ dL : L,
      (map_classes d m).classes.getD ((map_classes d m).y.getD p 0) dL
        = mget m (d.classes.getD (d.y.getD p 0) dL)) := by
  refine ⟨rfl, rfl, by simp [map_classes], sortDedup_sorted _, sortDedup_nodup _,
    fun a => mem_sortDedup, ?_⟩
  intro p hp dL
  have hyp : d.y.getD p 0 ∈ d.y := getD_mem hp 0
  have hylt : d.y.getD p 0 < d.classes.length := hWF _ hyp
  have hstep1 : (map_classes d m).y.getD p 0
      = (d.classes.map (fun k => (sortDedup (d.classes.map (mget m))).indexOf
          (mget m k))).getD (d.y.getD p 0) 0 := by
    show (d.y.map _).getD p 0 = _
    rw [getD_map_of_lt _ d.y p hp 0 0]
  have hstep2 : (d.classes.map (fun k => (sortDedup (d.classes.map (mget m))).indexOf
      (mget m k))).getD (d.y.getD p 0) 0
      = (sortDedup (d.classes.map (mget m))).indexOf
          (mget m (d.classes.getD (d.y.getD p 0) dL)) := by
    rw [getD_map_of_lt _ d.classes _ hylt 0 dL]
  have hmemC : mget m (d.classes.getD (d.y.getD p 0) dL)
      ∈ sortDedup (d.classes.map (mget m)) := by
    rw [mem_sortDedup]
    exact List.mem_map_of_mem (mget m) (getD_mem hylt dL)
  show (sortDedup (d.classes.map (mget m))).getD ((map_classes d m).y.getD p 0) dL = _
  rw [hstep1, hstep2, getD_indexOf hmemC]

/-- Witness for `map_classes_spec` on corpus A of the §8 example with the
mapping `{1 ↦ 5}`. -/
theorem map_classes_spec_witness :
    (∀ i ∈ dsA.y, i < dsA.classes.length) ∧
    ((map_classes dsA [(1, 5)]).names = dsA.names ∧
     (map_classes dsA [(1, 5)]).x = dsA.x ∧
     (map_classes dsA [(1, 5)]).y.length = dsA.y.length ∧
     (map_classes dsA [(1, 5)]).classes.Sorted (· ≤ ·) ∧
     (map_classes dsA [(1, 5)]).classes.Nodup ∧
     (∀ a, a ∈ (map_classes dsA [(1, 5)]).classes ↔
        a ∈ dsA.classes.map (mget [(1, 5)])) ∧
     (∀ p, p < dsA.y.length → ∀ dL : Nat,
       (map_classes dsA [(1, 5)]).classes.getD
           ((map_classes dsA [(1, 5)]).y.getD p 0) dL
         = mget [(1, 5)] (dsA.classes.getD (dsA.y.getD p 0) dL))) :=
  ⟨by decide, map_classes_spec dsA [(1, 5)] (by decide)⟩

/-- C6 counterexample: starting from a well-formed dataset whose taxonomy is
`[0, 1, 2]` with a single instance of class `0`, `remove_classes [0, 1]`
leaves a class list of length 2 but a `class_counts` of length 1:
`np.bincount(y)` without `minlength` does not cover the zero-instance class
`1`. -/
theorem class_counts_length_counterexample :
    (∀ i ∈ ldC.y, i < ldC.classes.length) ∧
    (remove_classes ldC [0, 1]).classes.length = 2 ∧
    (remove_classes ldC [0, 1]).class_counts = [1] ∧
    (remove_classes ldC [0, 1]).class_counts.length
      ≠ (remove_classes ldC [0, 1]).classes.length :=
  ⟨by decide, by decide, by decide, by decide⟩

/-- The `foldr max 0` of a non-empty list of naturals is attained by a
member. -/
theorem foldr_max_mem (l : List Nat) (hl : l ≠ []) : l.foldr max 0 ∈ l := by
  induction l with
  | nil => exact absurd rfl hl
  | cons b t ih =>
    by_cases ht : t = []
    · subst ht
      simp
    · rcases le_total b (t.foldr max 0) with h | h
      · rw [List.foldr_cons, max_eq_right h]
        exact List.mem_cons_of_mem b (ih ht)
      · rw [List.foldr_cons, max_eq_left h]
        exact List.mem_cons_self b t

/-- For `y` with values below `n`, `np.bincount(y)` (no `minlength`) has
length `n` exactly when the top index `n - 1` occurs in `y` — or when
`n = 0`, in which case `y` is empty and both lengths are zero. -/
theorem bincount_length_eq_iff {y : List Nat} {n : Nat}
    (hrange : ∀ i ∈ y, i < n) :
    ((bincount y 0).length = n) ↔ ((n - 1) ∈ y ∨ n = 0) := by
  rw [bincount_length]
  constructor
  · intro h
    cases y with
    | nil =>
      right
      simpa [bcLen] using h.symm
    | cons b t =>
      left
      have hb0 : 0 < n := Nat.lt_of_le_of_lt (Nat.zero_le b) (hrange b (List.mem_cons_self b t))
      have hfold : bcLen (b :: t) 0 = (b :: t).foldr max 0 + 1 := by
        simp [bcLen]
      rw [hfold] at h
      have hm : (b :: t).foldr max 0 = n - 1 := by omega
      rw [← hm]
      exact foldr_max_mem _ (by simp)
  · intro h
    rcases h with h | h
    · exact bcLen_eq hrange h
    · subst h
      have hy : y = [] := by
        cases y with
        | nil => rfl
        | cons b t => exact absurd (hrange b (List.mem_cons_self b t)) (by omega)
      subst hy
      rfl

/-- Labels resolved through `class_to_int` are valid indices into the class
list. -/
theorem mapClassToInt_ok_range (classes ls : List String) (y : List Nat)
    (h : mapExceptNat (classToInt classes) ls = .ok y) :
    ∀ i ∈ y, i < classes.length := by
  induction ls generalizing y with
  | nil =>
    simp only [mapExceptNat] at h
    obtain rfl := Except.ok.inj h
    simp
  | cons c rest ih =>
    by_cases hc : c ∈ classes
    · cases hr : mapExceptNat (classToInt classes) rest with
      | error e =>
        simp [mapExceptNat, classToInt, hc, hr, Bind.bind, Except.bind] at h
      | ok t =>
        simp only [mapExceptNat, classToInt, hc, if_true, hr, Bind.bind, Except.bind,
          Pure.pure, Except.pure, Except.ok.injEq] at h
        subst h
        intro i hi
        rcases List.mem_cons.mp hi with rfl | hi
        · exact List.indexOf_lt_length.mpr hc
        · exact ih t hr i hi
    · simp [mapExceptNat, classToInt, hc, Bind.bind, Except.bind] at h

/-- Every dataset value returned by a successful construction satisfies the
label-range invariant, and its `class_counts` is `np.bincount(y)` with the
no-`minlength` length behaviour. -/
theorem labelled_init_ok_invariants {α : Type} (p : PathModel) (nc : NCFile α)
    (t a : BackendOut α) (lw : String → String)
    (tbl : List (String × CorpusMeta)) (out : DSOut α)
    (hout : labelled_dataset_init p nc t a lw tbl = .ok out) :
    (∀ i ∈ out.y, i < out.classes.length) ∧
    out.class_counts = bincount out.y 0 ∧
    out.class_counts.length ≤ out.classes.length ∧
    (out.class_counts.length = out.classes.length ↔
      ((out.classes.length - 1) ∈ out.y ∨ out.classes = [])) := by
  unfold labelled_dataset_init at hout
  split at hout
  · simp at hout
  · split at hout
    · simp at hout
    · split at hout
      · simp at hout
      · split at hout
        · simp at hout
        · split at hout
          · simp at hout
          · rename_i y hy
            injection hout with h
            subst h
            have hrange := mapClassToInt_ok_range _ _ _ hy
            refine ⟨hrange, rfl, ?_, ?_⟩
            · rw [show (bincount y 0).length = bcLen y 0 from bincount_length y 0]
              exact bcLen_le hrange
            · have := bincount_length_eq_iff hrange
              rw [List.length_eq_zero] at this
              exact this

/-- C6 (amended): after construction and after every `map_classes` or
`remove_classes` call, `0 ≤ y[i] < len(classes)` holds for every instance
and `class_counts` equals `np.bincount(y)`; but `bincount` is called without
`minlength`, so `len(class_counts)` is only at most `len(classes)`: it
equals `len(classes)` exactly when the highest class index occurs in `y` (or
the class list is empty, both lengths then being zero), and is therefore
shorter whenever a non-empty taxonomy's trailing classes have zero
instances. -/
theorem class_counts_bincount_spec {γ L α : Type} [LinearOrder L] [Inhabited L]
    (d : LDS γ L) (m : List (L × L)) (keep : List L)
    (p : PathModel) (nc : NCFile α) (t a : BackendOut α)
    (lw : String → String) (tbl : List (String × CorpusMeta))
    (hWF : ∀ i ∈ d.y, i < d.classes.length) :
    (∀ out : DSOut α, labelled_dataset_init p nc t a lw tbl = Except.ok out →
      (∀ i ∈ out.y, i < out.classes.length) ∧
      out.class_counts = bincount out.y 0 ∧
      out.class_counts.length ≤ out.classes.length ∧
      (out.class_counts.length = out.classes.length ↔
        ((out.classes.length - 1) ∈ out.y ∨ out.classes = []))) ∧
    (∀ i ∈ (map_classes d m).y, i < (map_classes d m).classes.length) ∧
    ((map_classes d m).class_counts = bincount (map_classes d m).y 0) ∧
    ((map_classes d m).class_counts.length ≤ (map_classes d m).classes.length) ∧
    ((map_classes d m).class_counts.length = (map_classes d m).classes.length ↔
      (((map_classes d m).classes.length - 1) ∈ (map_classes d m).y ∨
        (map_classes d m).classes = [])) ∧
    (∀ i ∈ (remove_classes d keep).y, i < (remove_classes d keep).classes.length) ∧
    ((remove_classes d keep).class_counts = bincount (remove_classes d keep).y 0) ∧
    ((remove_classes d keep).class_counts.length
      ≤ (remove_classes d keep).classes.length) ∧
    ((remove_classes d keep).class_counts.length
        = (remove_classes d keep).classes.length ↔
      (((remove_classes d keep).classes.length - 1) ∈ (remove_classes d keep).y ∨
        (remove_classes d keep).classes = [])) := by
  have hmapRange : ∀ i ∈ (map_classes d m).y, i < (map_classes d m).classes.length := by
    intro i hi
    show i < (sortDedup (d.classes.map (mget m))).length
    simp only [map_classes, List.mem_map] at hi
    obtain ⟨j, hj, rfl⟩ := hi
    have hjlt : j < d.classes.length := hWF j hj
    rw [getD_map_of_lt _ d.classes j hjlt 0 default]
    exact List.indexOf_lt_length.mpr
      (mem_sortDedup.mpr (List.mem_map_of_mem _ (getD_mem hjlt default)))
  have hremRange : ∀ i ∈ (remove_classes d keep).y,
      i < (remove_classes d keep).classes.length := by
    intro i hi
    show i < (sortDedup (d.classes.filter (fun c => decide (c ∈ keep)))).length
    simp only [remove_classes, List.mem_map, List.mem_filter] at hi
    obtain ⟨s, ⟨hs1, hs2⟩, rfl⟩ := hi
    obtain ⟨j, hj, rfl⟩ := hs1
    have hjlt : j < d.classes.length := hWF j hj
    apply List.indexOf_lt_length.mpr
    rw [mem_sortDedup, List.mem_filter]
    exact ⟨getD_mem hjlt default, hs2⟩
  have hmapIff := bincount_length_eq_iff hmapRange
  have hremIff := bincount_length_eq_iff hremRange
  rw [List.length_eq_zero] at hmapIff hremIff
  refine ⟨fun out hout => labelled_init_ok_invariants p nc t a lw tbl out hout,
    hmapRange, rfl, ?_, hmapIff, hremRange, rfl, ?_, hremIff⟩
  · rw [show (map_classes d m).class_counts = bincount (map_classes d m).y 0 from rfl,
      bincount_length]
    exact bcLen_le hmapRange
  · rw [show (remove_classes d keep).class_counts
        = bincount (remove_classes d keep).y 0 from rfl, bincount_length]
    exact bcLen_le hremRange

/-- Witness for `class_counts_bincount_spec` on the dataset `ldC` with the
empty mapping, `keep = [0, 1]`, and the successful construction from
`ncGood` (whose result is `dsOutGood`, so the construction clause is not
vacuous at this input). -/
theorem class_counts_bincount_spec_witness :
    (∀ i ∈ ldC.y, i < ldC.classes.length) ∧
    (labelled_dataset_init pNc ncGood boDummy boDummy id tblEx
      = Except.ok dsOutGood) ∧
    ((∀ out : DSOut Int,
        labelled_dataset_init pNc ncGood boDummy boDummy id tblEx = Except.ok out →
        (∀ i ∈ out.y, i < out.classes.length) ∧
        out.class_counts = bincount out.y 0 ∧
        out.class_counts.length ≤ out.classes.length ∧
        (out.class_counts.length = out.classes.length ↔
          ((out.classes.length - 1) ∈ out.y ∨ out.classes = []))) ∧
     (∀ i ∈ (map_classes ldC []).y, i < (map_classes ldC []).classes.length) ∧
     ((map_classes ldC []).class_counts = bincount (map_classes ldC []).y 0) ∧
     ((map_classes ldC []).class_counts.length
        ≤ (map_classes ldC []).classes.length) ∧
     ((map_classes ldC []).class_counts.length
          = (map_classes ldC []).classes.length ↔
        (((map_classes ldC []).classes.length - 1) ∈ (map_classes ldC []).y ∨
          (map_classes ldC []).classes = [])) ∧
     (∀ i ∈ (remove_classes ldC [0, 1]).y,
        i < (remove_classes ldC [0, 1]).classes.length) ∧
     ((remove_classes ldC [0, 1]).class_counts
        = bincount (remove_classes ldC [0, 1]).y 0) ∧
     ((remove_classes ldC [0, 1]).class_counts.length
        ≤ (remove_classes ldC [0, 1]).classes.length) ∧
     ((remove_classes ldC [0, 1]).class_counts.length
          = (remove_classes ldC [0, 1]).classes.length ↔
        (((remove_classes ldC [0, 1]).classes.length - 1)
            ∈ (remove_classes ldC [0, 1]).y ∨
          (remove_classes ldC [0, 1]).classes = []))) :=
  ⟨by decide, rfl,
   class_counts_bincount_spec ldC [] [0, 1] pNc ncGood boDummy boDummy id tblEx
     (by decide)⟩
/-- C1 (code bug): `remove_classes` keeps all per-instance arrays aligned on
corpus A (first block), but `CombinedDataset(A, B, labels=[2])` filters `x`,
`y` and `speaker_indices` down to the 3 retained instances while `names` and
`corpus_indices` keep all 5 entries (the constructor never re-slices them),
so the alignment invariant fails. -/
theorem combined_labels_filter_misaligns_names :
    ((remove_classes dsA [1]).x.length = 1 ∧
     (remove_classes dsA [1]).names.length = 1 ∧
     (remove_classes dsA [1]).y.length = 1 ∧
     (remove_classes dsA [1]).speaker_indices.length = 1 ∧
     (∀ i ∈ (remove_classes dsA [1]).y,
        (remove_classes dsA [1]).classes.getD i 0 ∈ [1])) ∧
    ((combinedInit [dsA, dsB] [2]).x.length = 3 ∧
     (combinedInit [dsA, dsB] [2]).y.length = 3 ∧
     (combinedInit [dsA, dsB] [2]).speaker_indices.length = 3 ∧
     (combinedInit [dsA, dsB] [2]).names.length = 5 ∧
     (combinedInit [dsA, dsB] [2]).corpus_indices.length = 5) := by
  refine ⟨⟨?_, ?_, ?_, ?_, ?_⟩, ?_, ?_, ?_, ?_, ?_⟩ <;> decide

/-- C7 (code bug): in `ldG` both speakers belong to the single speaker group
0, so the correct per-instance group indices are `[0, 0]` — and the merge
loop of `CombinedDataset.__init__` computes exactly that — but
`remove_classes` (line 570) and the last line of `CombinedDataset.__init__`
(line 660) overwrite `speaker_group_indices` with `speaker_indices`,
producing `[0, 1]`, where `1` is not even a valid index into the
one-element `speaker_groups` list. -/
theorem speaker_group_indices_clobbered :
    (ldG.speaker_group_indices = [0, 0]) ∧
    ((combSpeakers [ldG]).2.2.2 = [0, 0]) ∧
    ((remove_classes ldG [0]).speaker_indices = [0, 1]) ∧
    ((remove_classes ldG [0]).speaker_group_indices = [0, 1]) ∧
    ((remove_classes ldG [0]).speaker_groups = [["s0", "s1"]]) ∧
    (∃ i ∈ (remove_classes ldG [0]).speaker_group_indices,
       ¬(i < (remove_classes ldG [0]).speaker_groups.length)) ∧
    ((combinedInit [ldG] []).speaker_group_indices = [0, 1]) := by
  refine ⟨?_, ?_, ?_, ?_, ?_, ?_, ?_⟩ <;> decide

/-- `getD` on a mapped list, expressed through `get` of the underlying
list. -/
theorem getD_map_get (f : β → δ) (l : List β) (j : Nat) (hj : j < l.length)
    (d0 : δ) : (l.map f).getD j d0 = f (l.get ⟨j, hj⟩) := by
  rw [List.getD_eq_getElem?_getD, List.getElem?_map, List.getElem?_eq_getElem hj]
  rfl

/-- `sortDedup` is unchanged by deduplicating first. -/
theorem sortDedup_dedup {L : Type} [LinearOrder L] (l : List L) :
    sortDedup l.dedup = sortDedup l := by
  unfold sortDedup
  rw [List.dedup_idem]

/-- The fields of `CombinedDataset` built without a label allow-list. -/
theorem combinedInit_none_fields {γ L : Type} [LinearOrder L] [Inhabited L]
    (ds : List (LDS γ L)) :
    (combinedInit ds []).classes
      = sortDedup ((ds.flatMap (fun d => d.classes)).dedup) ∧
    (combinedInit ds []).names
      = ds.flatMap (fun d => d.names.map (fun n => d.corpus ++ "_" ++ n)) ∧
    (combinedInit ds []).y
      = (ds.flatMap (fun d => d.y.map (fun i => d.classes.getD i default))).map
          (fun s => (sortDedup ((ds.flatMap (fun d => d.classes)).dedup)).indexOf s) ∧
    (combinedInit ds []).corpus_indices
      = repeatIdx (ds.map (fun d => d.x.length)) 0 := by
  refine ⟨?_, ?_, ?_, ?_⟩ <;> simp [combinedInit]

/-- C5: merging without a label allow-list — the combined class list is the
sorted union of the sources' class sets, the instance count is the sum of the
sources' counts, every instance's label is re-resolved by its class name into
the combined taxonomy, and `corpus_counts[j]` is the instance count of
source `j`. -/
theorem combined_merge_spec {γ L : Type} [LinearOrder L] [Inhabited L]
    (ds : List (LDS γ L)) (hne : ds ≠ [])
    (hWF : ∀ d ∈ ds, (∀ i ∈ d.y, i < d.classes.length) ∧ d.names.length = d.x.length)
    (hpos : ∀ d ∈ ds, d.x ≠ []) :
    (combinedInit ds []).classes = sortDedup (ds.flatMap (fun d => d.classes)) ∧
    (combinedInit ds []).names.length = (ds.map (fun d => d.names.length)).sum ∧
    (combinedInit ds []).y
      = (ds.flatMap (fun d => d.y.map (fun i => d.classes.getD i default))).map
          (fun s => (combinedInit ds []).classes.indexOf s) ∧
    (∀ i ∈ (combinedInit ds []).y, i < (combinedInit ds []).classes.length) ∧
    (∀ p, p < (combinedInit ds []).y.length → ∀ dL : L,
      (combinedInit ds []).classes.getD ((combinedInit ds []).y.getD p 0) dL
        = (ds.flatMap (fun d => d.y.map (fun i => d.classes.getD i default))).getD p dL) ∧
    ((corpus_counts (combinedInit ds [])).length = ds.length) ∧
    (∀ j, (hj : j < ds.length) → (corpus_counts (combinedInit ds [])).getD j 0
        = (ds.get ⟨j, hj⟩).names.length) := by
  obtain ⟨hcls, hnames, hy, hci⟩ := combinedInit_none_fields ds
  have hcls' : (combinedInit ds []).classes
      = sortDedup (ds.flatMap (fun d => d.classes)) := by
    rw [hcls, sortDedup_dedup]
  have hstr : ∀ s ∈ ds.flatMap (fun d => d.y.map (fun i => d.classes.getD i default)),
      s ∈ (combinedInit ds []).classes := by
    intro s hs
    rw [List.mem_flatMap] at hs
    obtain ⟨d, hd, hs⟩ := hs
    rw [List.mem_map] at hs
    obtain ⟨i, hi, rfl⟩ := hs
    have hilt : i < d.classes.length := (hWF d hd).1 i hi
    rw [hcls', mem_sortDedup, List.mem_flatMap]
    exact ⟨d, hd, getD_mem hilt default⟩
  have hylen : (combinedInit ds []).y.length
      = (ds.flatMap (fun d => d.y.map (fun i => d.classes.getD i default))).length := by
    rw [hy, List.length_map]
  -- corpus_counts facts
  have hsizes : ∀ j, (hj : j < ds.length) →
      (ds.map (fun d => d.x.length)).getD j 0 = (ds.get ⟨j, hj⟩).x.length := by
    intro j hj
    exact getD_map_get (fun d => d.x.length) ds j hj 0
  have hbound : ∀ a ∈ repeatIdx (ds.map (fun d => d.x.length)) 0, a < ds.length := by
    intro a ha
    have := (mem_repeatIdx ha).2
    simpa using this
  have hlastmem : (ds.length - 1) ∈ repeatIdx (ds.map (fun d => d.x.length)) 0 := by
    have hl : 0 < ds.length := List.length_pos.mpr hne
    have hj : ds.length - 1 < (ds.map (fun d => d.x.length)).length := by
      simp only [List.length_map]
      omega
    have hj' : ds.length - 1 < ds.length := by omega
    have hpos' : 0 < (ds.map (fun d => d.x.length)).getD (ds.length - 1) 0 := by
      rw [hsizes (ds.length - 1) hj']
      exact List.length_pos.mpr (hpos _ (List.get_mem ds _ hj'))
    have := mem_repeatIdx_of (ds.map (fun d => d.x.length)) 0 (ds.length - 1) hj hpos'
    simpa using this
  have hbc : bcLen (repeatIdx (ds.map (fun d => d.x.length)) 0) 0 = ds.length :=
    bcLen_eq hbound hlastmem
  have hcc_len : (corpus_counts (combinedInit ds [])).length = ds.length := by
    rw [corpus_counts, hci, bincount_length, hbc]
  refine ⟨hcls', ?_, ?_, ?_, ?_, hcc_len, ?_⟩
  · rw [hnames, List.length_flatMap]
    congr 1
    exact List.map_congr_left (fun d _ => by simp)
  · rw [hy, hcls', sortDedup_dedup]
  · intro i hi
    rw [hy] at hi
    rw [List.mem_map] at hi
    obtain ⟨s, hs, rfl⟩ := hi
    rw [hcls, sortDedup_dedup]
    refine List.indexOf_lt_length.mpr ?_
    rw [← hcls']
    exact hstr s hs
  · intro p hp dL
    rw [hylen] at hp
    have hgy : (combinedInit ds []).y.getD p 0
        = (sortDedup ((ds.flatMap (fun d => d.classes)).dedup)).indexOf
            ((ds.flatMap (fun d => d.y.map (fun i => d.classes.getD i default))).getD p dL) := by
      rw [hy, getD_map_get _ _ p hp 0]
      congr 1
      rw [List.getD_eq_getElem?_getD, List.getElem?_eq_getElem hp]
      rfl
    rw [hcls', hgy, sortDedup_dedup]
    refine getD_indexOf ?_ dL
    rw [← hcls']
    exact hstr _ (getD_mem hp dL)
  · intro j hj
    rw [corpus_counts, hci, bincount_getD _ _ _ (by rw [hbc]; exact hj)]
    have hjm : j < (ds.map (fun d => d.x.length)).length := by
      simpa using hj
    have := count_repeatIdx (ds.map (fun d => d.x.length)) 0 j hjm
    simp only [Nat.zero_add] at this
    rw [this, hsizes j hj, (hWF _ (List.get_mem ds _ hj)).2]

/-- Witness for `combined_merge_spec` at the §8 example: classes merge to
`[angry, happy, sad]` (encoded `[0, 1, 2]`), 5 instances, and
`corpus_counts == [2, 3]`. -/
theorem combined_merge_spec_witness :
    (([dsA, dsB] : List (LDS Nat Nat)) ≠ [] ∧
     (∀ d ∈ ([dsA, dsB] : List (LDS Nat Nat)),
        (∀ i ∈ d.y, i < d.classes.length) ∧ d.names.length = d.x.length) ∧
     (∀ d ∈ ([dsA, dsB] : List (LDS Nat Nat)), d.x ≠ [])) ∧
    ((combinedInit [dsA, dsB] []).classes = [0, 1, 2] ∧
     (combinedInit [dsA, dsB] []).names.length = 5 ∧
     corpus_counts (combinedInit [dsA, dsB] []) = [2, 3]) ∧
    ((combinedInit [dsA, dsB] []).classes
        = sortDedup (([dsA, dsB] : List (LDS Nat Nat)).flatMap (fun d => d.classes)) ∧
     (combinedInit [dsA, dsB] []).names.length
        = (([dsA, dsB] : List (LDS Nat Nat)).map (fun d => d.names.length)).sum ∧
     (combinedInit [dsA, dsB] []).y
        = (([dsA, dsB] : List (LDS Nat Nat)).flatMap
            (fun d => d.y.map (fun i => d.classes.getD i default))).map
              (fun s => (combinedInit [dsA, dsB] []).classes.indexOf s) ∧
     (∀ i ∈ (combinedInit [dsA, dsB] []).y,
        i < (combinedInit [dsA, dsB] []).classes.length) ∧
     (∀ p, p < (combinedInit [dsA, dsB] []).y.length → ∀ dL : Nat,
        (combinedInit [dsA, dsB] []).classes.getD
            ((combinedInit [dsA, dsB] []).y.getD p 0) dL
          = (([dsA, dsB] : List (LDS Nat Nat)).flatMap
              (fun d => d.y.map (fun i => d.classes.getD i default))).getD p dL) ∧
     ((corpus_counts (combinedInit [dsA, dsB] [])).length
        = ([dsA, dsB] : List (LDS Nat Nat)).length) ∧
     (∀ j, (hj : j < ([dsA, dsB] : List (LDS Nat Nat)).length) →
        (corpus_counts (combinedInit [dsA, dsB] [])).getD j 0
          = (([dsA, dsB] : List (LDS Nat Nat)).get ⟨j, hj⟩).names.length)) :=
  ⟨⟨List.cons_ne_nil _ _, by decide, by decide⟩, ⟨by decide, by decide, by decide⟩,
   combined_merge_spec [dsA, dsB] (List.cons_ne_nil _ _) (by decide) (by decide)⟩

/-- A fallible comprehension over elements that all succeed returns a value. -/
theorem mapExceptNat_ok_of (g : String → Except DatasetError Nat)
    (names : List String) (h : ∀ n ∈ names, ∃ k, g n = .ok k) :
    ∃ l, mapExceptNat g names = .ok l := by
  induction names with
  | nil => exact ⟨[], rfl⟩
  | cons c rest ih =>
    obtain ⟨k, hk⟩ := h c (List.mem_cons_self c rest)
    obtain ⟨l, hl⟩ := ih (fun n hn => h n (List.mem_cons_of_mem c hn))
    exact ⟨k :: l, by simp [mapExceptNat, hk, hl, Bind.bind, Except.bind, Pure.pure,
      Except.pure]⟩

/-- Resolving labels through `class_to_int` fails with the unknown-class
error as soon as some label is outside the taxonomy. -/
theorem mapClassToInt_err (classes ls : List String)
    (h : ∃ l ∈ ls, l ∉ classes) :
    mapExceptNat (classToInt classes) ls = .error .unknownClass := by
  induction ls with
  | nil => simp at h
  | cons c rest ih =>
    by_cases hc : c ∈ classes
    · obtain ⟨l, hl, hlc⟩ := h
      have hrest : ∃ l ∈ rest, l ∉ classes := by
        rcases List.mem_cons.mp hl with rfl | hl'
        · exact absurd hc hlc
        · exact ⟨l, hl', hlc⟩
      simp [mapExceptNat, classToInt, hc, ih hrest, Bind.bind, Except.bind]
    · simp [mapExceptNat, classToInt, hc, Bind.bind, Except.bind, Functor.map,
        Except.map]

/-- C8: dataset construction fails — returning an error and no dataset
value — with the unsupported-format error on an unrecognized suffix, the
missing-metadata error on a netCDF container without a corpus attribute, the
unknown-corpus error when the (lower-cased) corpus name is absent from the
metadata table, and the unknown-class error when some backend label is
outside the declared taxonomy. -/
theorem dataset_init_error_taxonomy {α : Type}
    (p₁ : PathModel) (nc₁ : NCFile α) (t₁ a₁ : BackendOut α)
    (lw₁ : String → String) (tb₁ : List (String × CorpusMeta))
    (p₂ : PathModel) (nc₂ : NCFile α) (t₂ a₂ : BackendOut α)
    (lw₂ : String → String) (tb₂ : List (String × CorpusMeta))
    (p₃ : PathModel) (nc₃ : NCFile α) (t₃ a₃ b₃ : BackendOut α)
    (lw₃ : String → String) (tb₃ : List (String × CorpusMeta))
    (p₄ : PathModel) (nc₄ : NCFile α) (t₄ a₄ b₄ : BackendOut α)
    (lw₄ : String → String) (tb₄ : List (String × CorpusMeta))
    (meta₄ : CorpusMeta) (ls₄ : List String)
    (h₁a : lastSuffix p₁ ≠ some ".nc") (h₁b : lastSuffix p₁ ≠ some ".txt")
    (h₁c : headSuffix p₁ ≠ some ".arff")
    (h₂p : lastSuffix p₂ = some ".nc") (h₂ : nc₂.corpus = none)
    (h₃a : backendFor p₃ nc₃ t₃ a₃ = .ok b₃)
    (h₃b : tb₃.lookup (lw₃ b₃.corpus) = none)
    (h₄a : backendFor p₄ nc₄ t₄ a₄ = .ok b₄)
    (h₄b : tb₄.lookup (lw₄ b₄.corpus) = some meta₄)
    (h₄c : ∀ n ∈ b₄.names, meta₄.get_speaker n ∈ meta₄.speakers)
    (h₄d : b₄.labels = some ls₄)
    (h₄e : ∃ l ∈ ls₄, l ∉ meta₄.emotion_map_values) :
    labelled_dataset_init p₁ nc₁ t₁ a₁ lw₁ tb₁ = .error .unsupportedFormat ∧
    labelled_dataset_init p₂ nc₂ t₂ a₂ lw₂ tb₂ = .error .missingMetadata ∧
    labelled_dataset_init p₃ nc₃ t₃ a₃ lw₃ tb₃ = .error .unknownCorpus ∧
    labelled_dataset_init p₄ nc₄ t₄ a₄ lw₄ tb₄ = .error .unknownClass := by
  refine ⟨?_, ?_, ?_, ?_⟩
  · simp [labelled_dataset_init, backendFor, h₁a, h₁b, h₁c]
  · simp [labelled_dataset_init, backendFor, h₂p, netcdfBackend, h₂]
  · simp [labelled_dataset_init, h₃a, h₃b]
  · obtain ⟨si, hsi⟩ := mapExceptNat_ok_of
      (fun n => speakerToInt meta₄.speakers (meta₄.get_speaker n)) b₄.names
      (fun n hn => ⟨meta₄.speakers.indexOf (meta₄.get_speaker n),
        by simp [speakerToInt, h₄c n hn]⟩)
    simp [labelled_dataset_init, h₄a, h₄b, hsi, h₄d,
      mapClassToInt_err meta₄.emotion_map_values ls₄ h₄e]

/-- Witness for `dataset_init_error_taxonomy`: a `.csv` path, a netCDF file
with no corpus attribute, a corpus name `zzz` with an empty metadata table,
and a label `weird` outside the taxonomy `["good"]`. -/
theorem dataset_init_error_taxonomy_witness :
    ((lastSuffix pCsv ≠ some ".nc") ∧ (lastSuffix pCsv ≠ some ".txt") ∧
     (headSuffix pCsv ≠ some ".arff") ∧
     (lastSuffix pNc = some ".nc") ∧ (ncNoCorpus.corpus = none) ∧
     (backendFor pNc ncZZZ boDummy boDummy = .ok boZZZ) ∧
     (List.lookup (id boZZZ.corpus) ([] : List (String × CorpusMeta)) = none) ∧
     (backendFor pNc ncBadLabel boDummy boDummy = .ok boCorp) ∧
     (tblEx.lookup (id boCorp.corpus) = some metaEx) ∧
     (∀ n ∈ boCorp.names, metaEx.get_speaker n ∈ metaEx.speakers) ∧
     (boCorp.labels = some ["weird"]) ∧
     (∃ l ∈ ["weird"], l ∉ metaEx.emotion_map_values)) ∧
    (labelled_dataset_init pCsv ncNoCorpus boDummy boDummy id []
        = .error .unsupportedFormat ∧
     labelled_dataset_init pNc ncNoCorpus boDummy boDummy id []
        = .error .missingMetadata ∧
     labelled_dataset_init pNc ncZZZ boDummy boDummy id []
        = .error .unknownCorpus ∧
     labelled_dataset_init pNc ncBadLabel boDummy boDummy id tblEx
        = .error .unknownClass) :=
  ⟨⟨by decide, by decide, by decide, rfl, rfl, rfl, rfl, rfl, rfl, by decide, rfl,
    by decide⟩,
   dataset_init_error_taxonomy pCsv ncNoCorpus boDummy boDummy id []
     pNc ncNoCorpus boDummy boDummy id []
     pNc ncZZZ boDummy boDummy boZZZ id []
     pNc ncBadLabel boDummy boDummy boCorp id tblEx metaEx ["weird"]
     (by decide) (by decide) (by decide) rfl rfl rfl rfl rfl rfl (by decide) rfl
     (by decide)⟩
